import Mathlib

/-!
Verification of the FastAPI workout-tracker backend (`api/` package): a shallow
embedding of its data model (`models.py`), JWT handling (`deps.py`,
`routers/auth.py`) and the workout/routine CRUD handlers
(`routers/workouts.py`, `routers/routines.py`), together with theorems about
the behaviour of each endpoint.

Conventions of the embedding:
* A SQLAlchemy/SQLite database is a `Db` value: one list per table plus the
  autoincrement counters for generated primary keys.
* Each handler is a pure function from the committed database (and the
  request-scoped inputs FastAPI injects) to `Except HTTPException (Db × α)`:
  `Except.ok` carries the committed database after the transaction, while
  `Except.error` models `raise HTTPException` after `db.rollback()`, so the
  committed database is unchanged (the `db_after_*` wrappers make that run
  semantics explicit).
* `bcrypt_context.hash` / `bcrypt_context.verify` are external library calls;
  they enter the embedding as function parameters.
* `python-jose` tokens are modelled symbolically: a presented token is either
  malformed or a payload signed with some key; `jwt.decode` checks the key
  against the verifier's secret and rejects an `exp` claim lying strictly in
  the past, exactly as `jose.jwt.decode` does with zero leeway.
* `os.getenv` reads from an `Env`; the two modules `auth.py` and `deps.py`
  each compute their own `SECRET_KEY` from it, with the distinct fallback
  literals that appear in the source.
-/

namespace WorkoutApp

/-- A row of the `users` table (`models.py`: class `User`): generated integer
primary key, unique username, and the bcrypt hash stored at registration. -/
structure User where
  id : Nat
  username : String
  hashed_password : String
deriving Repr, DecidableEq

/-- A row of the `workouts` table (`models.py`: class `Workout`): generated id,
owning user's id (`user_id` foreign key), name and optional description. -/
structure Workout where
  id : Nat
  user_id : Nat
  name : String
  description : Option String
deriving Repr, DecidableEq

/-- A row of the `routines` table (`models.py`: class `Routine`). -/
structure Routine where
  id : Nat
  user_id : Nat
  name : String
  description : Option String
deriving Repr, DecidableEq

/-- A row of the `workout_routine` association table
(`models.py`: `workout_routine_association`): just the two foreign keys, and
both columns are `primary_key=True`, so the pair is unique in the table. -/
structure Membership where
  workout_id : Nat
  routine_id : Nat
deriving Repr, DecidableEq

/-- The committed SQLite database: one list per table, in insertion order,
plus the autoincrement counters that generate fresh primary keys. -/
structure Db where
  users : List User
  workouts : List Workout
  routines : List Routine
  memberships : List Membership
  nextUserId : Nat
  nextRoutineId : Nat
deriving Repr, DecidableEq

/-- The `HTTPException` a handler raises: status code, detail message, and the
optional extra headers (only the `/auth/token` 401 sets any). -/
structure HTTPException where
  status_code : Nat
  detail : String
  headers : List (String × String) := []
deriving Repr, DecidableEq

/-- The process environment seen by `os.getenv`. -/
abbrev Env := String → Option String

/-- The claims payload of a JWT: `create_access_token` sets `sub`, `id` and
`exp`; a token presented by a client may omit any of them. `exp` is a unix
timestamp in seconds. -/
structure JWTPayload where
  sub : Option String
  id : Option Nat
  exp : Option Nat
deriving Repr, DecidableEq

/-- A presented bearer token: either not a well-formed JWS at all, or a
payload signed (HS256) with some key. Since HMAC verification succeeds exactly
when the verifier holds the signing key, the key is carried symbolically. -/
inductive JWT where
  | malformed
  | signed (payload : JWTPayload) (key : String)
deriving Repr, DecidableEq

/-- The semantics of `jose.jwt.decode(token, secret, algorithms=[ALGORITHM])`:
fails (raises `JWTError`) on a malformed token, on a signature made with a
different key, and on an `exp` claim strictly in the past (`jose` validates
`exp` with zero leeway whenever the claim is present). -/
def jwt_decode (secret : String) (now : Nat) : JWT → Except Unit JWTPayload
  | JWT.malformed => Except.error ()
  | JWT.signed payload key =>
    if key == secret then
      match payload.exp with
      | some e => if e < now then Except.error () else Except.ok payload
      | none => Except.ok payload
    else Except.error ()

/-- `SECRET_KEY` as module `routers/auth.py` computes it:
`os.getenv("AUTH_SECRET_KEY", "fallback-secret-key-change-in-production")`. -/
def auth_SECRET_KEY (env : Env) : String :=
  (env "AUTH_SECRET_KEY").getD "fallback-secret-key-change-in-production"

/-- `SECRET_KEY` as module `deps.py` computes it:
`os.getenv("AUTH_SECRET_KEY", "fallback-secret-key-change-this-in-production")`.
Note the fallback literal differs from the one in `routers/auth.py`. -/
def deps_SECRET_KEY (env : Env) : String :=
  (env "AUTH_SECRET_KEY").getD "fallback-secret-key-change-this-in-production"

/-- The identity dictionary `{'username': ..., 'id': ...}` that
`get_current_user` injects into protected handlers. -/
structure CurrentUser where
  username : String
  id : Nat
deriving Repr, DecidableEq

/-- The 401 raised by `get_current_user` on every failed validation. -/
def credentials_error : HTTPException :=
  { status_code := 401, detail := "Could not validate user credentials" }

/-- `deps.get_current_user`: decodes the bearer token with `deps.py`'s
`SECRET_KEY`, then requires both the `sub` and `id` claims to be present;
any `JWTError` or missing claim becomes the same 401. -/
def get_current_user (env : Env) (now : Nat) (token : JWT) :
    Except HTTPException CurrentUser :=
  match jwt_decode (deps_SECRET_KEY env) now token with
  | Except.error _ => Except.error credentials_error
  | Except.ok payload =>
    match payload.sub, payload.id with
    | some username, some user_id => Except.ok { username := username, id := user_id }
    | some _, none => Except.error credentials_error
    | none, _ => Except.error credentials_error

/-- `auth.create_access_token`: encodes `{"sub": username, "id": user_id,
"exp": now + expires_delta}` signed with `auth.py`'s `SECRET_KEY`. -/
def create_access_token (env : Env) (now : Nat) (username : String) (user_id : Nat)
    (expires_delta : Nat) : JWT :=
  JWT.signed { sub := some username, id := some user_id, exp := some (now + expires_delta) }
    (auth_SECRET_KEY env)

/-- Request body of `POST /auth/register` (`UserCreateRequest`). -/
structure UserCreateRequest where
  username : String
  password : String
deriving Repr, DecidableEq

/-- Response model of `POST /auth/register` (`UserResponse`): it has exactly
the fields `id` and `username` — the hash cannot appear in it. -/
structure UserResponse where
  id : Nat
  username : String
deriving Repr, DecidableEq

/-- Response model of the login endpoints (`Token`). -/
structure Token where
  access_token : JWT
  token_type : String
deriving Repr, DecidableEq

/-- The 400 raised by `create_user` when the username is already registered
(the spec's error taxonomy names this outcome `Conflict` and its interface
table maps it to HTTP 400). -/
def username_taken_error : HTTPException :=
  { status_code := 400, detail := "Username already registered" }

/-- `auth.create_user` (`POST /auth/register`): rejects an existing username,
otherwise persists the new user with the bcrypt hash (`hash` stands for
`bcrypt_context.hash`) and returns the public identity. -/
def create_user (hash : String → String) (db : Db) (req : UserCreateRequest) :
    Except HTTPException (Db × UserResponse) :=
  match db.users.find? (fun u => u.username == req.username) with
  | some _ => Except.error username_taken_error
  | none =>
    let user : User :=
      { id := db.nextUserId, username := req.username, hashed_password := hash req.password }
    Except.ok ({ db with users := db.users ++ [user], nextUserId := db.nextUserId + 1 },
               { id := user.id, username := user.username })

/-- `auth.authenticate_user`: looks the user up by username and checks the
password against the stored hash (`verify` stands for
`bcrypt_context.verify`); `none` models the Python `False`. -/
def authenticate_user (verify : String → String → Bool) (db : Db)
    (username password : String) : Option User :=
  match db.users.find? (fun u => u.username == username) with
  | none => none
  | some user => if verify password user.hashed_password then some user else none

/-- The single 401 that `login_for_access_token` raises whenever
`authenticate_user` returns a falsy value, for either failure cause. -/
def incorrect_credentials_error : HTTPException :=
  { status_code := 401, detail := "Incorrect username or password",
    headers := [("WWW-Authenticate", "Bearer")] }

/-- `auth.login_for_access_token` (`POST /auth/token`): authenticates the form
credentials and issues a 20-minute token, or raises one fixed 401. -/
def login_for_access_token (verify : String → String → Bool) (env : Env) (now : Nat)
    (db : Db) (username password : String) : Except HTTPException Token :=
  match authenticate_user verify db username password with
  | none => Except.error incorrect_credentials_error
  | some user =>
    Except.ok { access_token := create_access_token env now user.username user.id (20 * 60),
                token_type := "bearer" }

/-- The 404 raised by `get_workout`. -/
def workout_not_found_error : HTTPException :=
  { status_code := 404, detail := "Workout not found" }

/-- `workouts.get_workout` (`GET /workouts/`): the query filters on
`Workout.id == workout_id` only — the authenticated `user` is injected but
never used in the filter. -/
def get_workout (db : Db) (user : CurrentUser) (workout_id : Nat) :
    Except HTTPException Workout :=
  match db.workouts.find? (fun w => w.id == workout_id) with
  | none => Except.error workout_not_found_error
  | some w => Except.ok w

/-- `workouts.get_workouts` (`GET /workouts/all`): all workouts with
`user_id == user['id']`. -/
def get_workouts (db : Db) (user : CurrentUser) : List Workout :=
  db.workouts.filter (fun w => w.user_id == user.id)

/-- The 404 raised by `delete_workout` when the ownership-filtered lookup
comes back empty. -/
def workout_delete_not_found_error : HTTPException :=
  { status_code := 404, detail := "Workout not found or you don't have permission to delete it" }

/-- `workouts.delete_workout` (`DELETE /workouts/`): looks the row up filtered
by both id and owner; on success `db.delete` removes the workout row and the
ORM deletes the `workout_routine` association rows that reference it (the
standard unit-of-work behaviour for a `secondary` relationship), all in one
committed transaction. -/
def delete_workout (db : Db) (user : CurrentUser) (workout_id : Nat) :
    Except HTTPException (Db × String) :=
  match db.workouts.find? (fun w => w.id == workout_id && w.user_id == user.id) with
  | none => Except.error workout_delete_not_found_error
  | some _ =>
    Except.ok ({ db with
                 workouts := db.workouts.filter (fun w => !(w.id == workout_id)),
                 memberships := db.memberships.filter (fun m => !(m.workout_id == workout_id)) },
               "Workout deleted successfully")

/-- Request body of `POST /routines/` (`RoutineCreate`): the `workouts` field
carries `Field(default=[])`, so a request that omits it parses to the empty
list. -/
structure RoutineCreate where
  name : String
  description : Option String
  workouts : List Nat := []
deriving Repr, DecidableEq

/-- The pydantic `Field` constraints on a routine-creation request
(`min_length=1, max_length=100` for the name, `max_length=500` for the
description), checked by FastAPI before the handler runs. -/
def RoutineCreate.valid (r : RoutineCreate) : Bool :=
  1 ≤ r.name.length && r.name.length ≤ 100 &&
    (match r.description with
     | none => true
     | some d => d.length ≤ 500)

/-- Workout summary embedded in a routine response (`WorkoutSummary`). -/
structure WorkoutSummary where
  id : Nat
  name : String
  description : Option String
deriving Repr, DecidableEq

/-- Response model of the routine endpoints (`RoutineResponse`). -/
structure RoutineResponse where
  id : Nat
  user_id : Nat
  name : String
  description : Option String
  workouts : List WorkoutSummary
deriving Repr, DecidableEq

/-- Projection of a workout row to the summary the response model keeps. -/
def Workout.toSummary (w : Workout) : WorkoutSummary :=
  { id := w.id, name := w.name, description := w.description }

/-- The member workouts of one routine as `joinedload(Routine.workouts)`
produces them: follow each association row of the routine to its workout. -/
def routine_workouts (db : Db) (r : Routine) : List WorkoutSummary :=
  (db.memberships.filter (fun m => m.routine_id == r.id)).filterMap
    (fun m => (db.workouts.find? (fun w => w.id == m.workout_id)).map Workout.toSummary)

/-- `routines.get_routines` (`GET /routines/`): the caller's routines, each
eagerly populated with its member workouts. -/
def get_routines (db : Db) (user : CurrentUser) : List RoutineResponse :=
  (db.routines.filter (fun r => r.user_id == user.id)).map
    (fun r => { id := r.id, user_id := r.user_id, name := r.name,
                description := r.description, workouts := routine_workouts db r })

/-- The 404 `create_routine` raises for the first requested workout id that
has no row owned by the caller, naming that id in the detail. -/
def routine_workout_error (workout_id : Nat) : HTTPException :=
  { status_code := 404,
    detail := "Workout with ID " ++ toString workout_id ++ " not found or you don't have access to it" }

/-- The validation loop of `create_routine`: for each requested id, in order,
look up a workout with that id owned by the caller; the first miss raises the
404 naming it, otherwise the found rows are collected in order. -/
def validate_workouts (db : Db) (user_id : Nat) :
    List Nat → Except HTTPException (List Workout)
  | [] => Except.ok []
  | workout_id :: rest =>
    match db.workouts.find? (fun w => w.id == workout_id && w.user_id == user_id) with
    | none => Except.error (routine_workout_error workout_id)
    | some w =>
      match validate_workouts db user_id rest with
      | Except.error e => Except.error e
      | Except.ok ws => Except.ok (w :: ws)

/-- The 400 produced when `db.commit()` raises: the generic
`except Exception` branch of `create_routine` rolls back and wraps the
database error (here SQLite rejecting a duplicate `(workout_id, routine_id)`
pair, both columns being the association table's primary key). -/
def integrity_error : HTTPException :=
  { status_code := 400,
    detail := "Failed to create routine: (sqlite3.IntegrityError) UNIQUE constraint failed: workout_routine.workout_id, workout_routine.routine_id" }

/-- The flush of the appended `db_routine.workouts` collection at
`db.commit()`: one `INSERT` into `workout_routine` per appended workout, in
order, each rejected if the table already holds that exact pair (the two
columns form the composite primary key); `none` models the resulting
`IntegrityError` aborting the transaction. -/
def insert_memberships : List Membership → List Membership → Option (List Membership)
  | table, [] => some table
  | table, m :: rest =>
    if table.contains m then none else insert_memberships (table ++ [m]) rest

/-- `routines.create_routine` (`POST /routines/`): validates every requested
workout id with an ownership filter (raising 404 on the first miss, before
anything is committed), then commits the new routine row plus one association
row per appended workout; a database error at commit (duplicate association
pair) is caught, rolled back and reported as a 400. -/
def create_routine (db : Db) (user : CurrentUser) (routine : RoutineCreate) :
    Except HTTPException (Db × RoutineResponse) :=
  match validate_workouts db user.id routine.workouts with
  | Except.error e => Except.error e
  | Except.ok ws =>
    let rid := db.nextRoutineId
    match insert_memberships db.memberships
        (ws.map (fun w => { workout_id := w.id, routine_id := rid })) with
    | none => Except.error integrity_error
    | some table =>
      Except.ok ({ db with
                   routines := db.routines ++
                     [{ id := rid, user_id := user.id, name := routine.name,
                        description := routine.description }],
                   memberships := table,
                   nextRoutineId := rid + 1 },
                 { id := rid, user_id := user.id, name := routine.name,
                   description := routine.description,
                   workouts := ws.map Workout.toSummary })

/-- The 404 raised by `delete_routine` when the ownership-filtered lookup
comes back empty. -/
def routine_delete_not_found_error : HTTPException :=
  { status_code := 404, detail := "Routine not found or you don't have permission to delete it" }

/-- `routines.delete_routine` (`DELETE /routines/`): looks the routine up
filtered by both id and owner; on success deletes the routine row and its
association rows (ORM `secondary` cleanup), leaving the workout rows alone. -/
def delete_routine (db : Db) (user : CurrentUser) (routine_id : Nat) :
    Except HTTPException (Db × String) :=
  match db.routines.find? (fun r => r.id == routine_id && r.user_id == user.id) with
  | none => Except.error routine_delete_not_found_error
  | some _ =>
    Except.ok ({ db with
                 routines := db.routines.filter (fun r => !(r.id == routine_id)),
                 memberships := db.memberships.filter (fun m => !(m.routine_id == routine_id)) },
               "Routine deleted successfully")

/-- Run semantics of `POST /auth/register`: the committed database after the
request (unchanged when the handler raised, since nothing was committed). -/
def db_after_register (hash : String → String) (db : Db) (req : UserCreateRequest) : Db :=
  match create_user hash db req with
  | Except.ok (db2, _) => db2
  | Except.error _ => db

/-- Run semantics of `POST /routines/`: the committed database after the
request (the handler rolls back and re-raises on every error path). -/
def db_after_create_routine (db : Db) (user : CurrentUser) (routine : RoutineCreate) : Db :=
  match create_routine db user routine with
  | Except.ok (db2, _) => db2
  | Except.error _ => db

/-- Run semantics of `DELETE /workouts/`. -/
def db_after_delete_workout (db : Db) (user : CurrentUser) (workout_id : Nat) : Db :=
  match delete_workout db user workout_id with
  | Except.ok (db2, _) => db2
  | Except.error _ => db

/-- Run semantics of `DELETE /routines/`. -/
def db_after_delete_routine (db : Db) (user : CurrentUser) (routine_id : Nat) : Db :=
  match delete_routine db user routine_id with
  | Except.ok (db2, _) => db2
  | Except.error _ => db

/-- Rejection predicate written from the spec's words for token verification
(`verify(token)` fails iff the signature is invalid, the token malformed or
expired, or a required claim — `sub` or `id` — is absent), to be compared
with the source-derived `get_current_user`. -/
def spec_token_rejected (env : Env) (now : Nat) : JWT → Bool
  | JWT.malformed => true
  | JWT.signed payload key =>
    !(key == deps_SECRET_KEY env) ||
      (match payload.exp with
       | some e => decide (e < now)
       | none => false) ||
      payload.sub.isNone || payload.id.isNone

/-- The empty process environment: `AUTH_SECRET_KEY` is not configured, so
each module uses its own hard-coded fallback secret. -/
def no_env : Env := fun _ => none

/-- Concrete identity for evaluating the theorems: alice, user id 1. -/
def demo_user : CurrentUser := { username := "alice", id := 1 }

/-- Concrete identity for evaluating the theorems: bob, user id 2. -/
def demo_bob : CurrentUser := { username := "bob", id := 2 }

/-- Concrete database: alice (id 1) owns workout 1; no routines yet. -/
def demo_db : Db :=
  { users := [{ id := 1, username := "alice", hashed_password := "h" }],
    workouts := [{ id := 1, user_id := 1, name := "Push-ups", description := none }],
    routines := [],
    memberships := [],
    nextUserId := 2,
    nextRoutineId := 1 }

/-- Concrete database for the deletion claims: alice (id 1) owns workout 1
and routine 1, which references workout 1; bob (id 2) owns workout 2. -/
def demo_db2 : Db :=
  { users := [{ id := 1, username := "alice", hashed_password := "h" },
              { id := 2, username := "bob", hashed_password := "g" }],
    workouts := [{ id := 1, user_id := 1, name := "Push-ups", description := none },
                 { id := 2, user_id := 2, name := "Squats", description := some "legs" }],
    routines := [{ id := 1, user_id := 1, name := "AM", description := none }],
    memberships := [{ workout_id := 1, routine_id := 1 }],
    nextUserId := 3,
    nextRoutineId := 2 }

/-- Inserting pairwise-distinct association rows, none of which is already in
the table, succeeds and appends them in order. -/
theorem insert_memberships_ok (rows : List Membership) :
    ∀ table : List Membership, rows.Nodup → (∀ m ∈ rows, m ∉ table) →
      insert_memberships table rows = some (table ++ rows) := by
  induction rows with
  | nil => intro table _ _; simp [insert_memberships]
  | cons m rest ih =>
    intro table hnd hdis
    have hm : m ∉ table := hdis m (by simp)
    have hc : table.contains m = false := by
      cases hctm : table.contains m with
      | false => rfl
      | true => exact absurd (List.elem_iff.mp hctm) hm
    rw [List.nodup_cons] at hnd
    have hrec := ih (table ++ [m]) hnd.2 (by
      intro x hx
      simp only [List.mem_append, List.mem_singleton]
      rintro (hxt | hxm)
      · exact hdis x (by simp [hx]) hxt
      · exact hnd.1 (hxm ▸ hx))
    simp only [insert_memberships, hc, Bool.false_eq_true, if_false, hrec]
    simp

/-- If the sequential insert of association rows succeeds, the inserted rows
were pairwise distinct and disjoint from the table. -/
theorem insert_memberships_some_spec (rows : List Membership) :
    ∀ table out, insert_memberships table rows = some out →
      rows.Nodup ∧ ∀ m ∈ rows, m ∉ table := by
  induction rows with
  | nil => intro table out _; exact ⟨List.nodup_nil, by simp⟩
  | cons m rest ih =>
    intro table out h
    cases hc : table.contains m with
    | true =>
      simp only [insert_memberships] at h
      rw [hc] at h
      simp at h
    | false =>
      simp only [insert_memberships, hc, Bool.false_eq_true, if_false] at h
      obtain ⟨hnd, hdis⟩ := ih (table ++ [m]) out h
      have hmrest : m ∉ rest := by
        intro hmem
        exact hdis m hmem (by simp)
      have hmtable : m ∉ table := by
        intro hmem
        have ht : table.contains m = true := List.elem_iff.mpr hmem
        rw [ht] at hc
        simp at hc
      refine ⟨List.nodup_cons.mpr ⟨hmrest, hnd⟩, ?_⟩
      intro x hx
      rcases List.mem_cons.mp hx with hxm | hxr
      · exact hxm ▸ hmtable
      · intro hxt
        exact hdis x hxr (by simp [hxt])

/-- Inserting a list of association rows containing a repeated pair always
aborts with the uniqueness violation. -/
theorem insert_memberships_none_of_not_nodup (table rows : List Membership)
    (h : ¬ rows.Nodup) : insert_memberships table rows = none := by
  cases heq : insert_memberships table rows with
  | none => rfl
  | some out => exact absurd (insert_memberships_some_spec rows table out heq).1 h

/-- When every requested id has a workout row owned by the caller, the
validation loop succeeds and collects, in order, one owned workout row per
requested id. -/
theorem validate_workouts_ok (db : Db) (uid : Nat) (ids : List Nat)
    (h : ∀ wid ∈ ids,
      (db.workouts.find? (fun w => w.id == wid && w.user_id == uid)).isSome) :
    ∃ ws : List Workout, validate_workouts db uid ids = Except.ok ws ∧
      ws.map Workout.id = ids ∧ ∀ w ∈ ws, w ∈ db.workouts ∧ w.user_id = uid := by
  induction ids with
  | nil => exact ⟨[], rfl, rfl, by simp⟩
  | cons wid rest ih =>
    obtain ⟨w, hw⟩ := Option.isSome_iff_exists.mp (h wid (by simp))
    obtain ⟨ws, hws, hmap, hall⟩ := ih (fun x hx => h x (by simp [hx]))
    have hpred := List.find?_some hw
    simp only [Bool.and_eq_true, beq_iff_eq] at hpred
    refine ⟨w :: ws, ?_, ?_, ?_⟩
    · simp [validate_workouts, hw, hws]
    · simp [hmap, hpred.1]
    · intro x hx
      rcases List.mem_cons.mp hx with hxw | hxs
      · exact hxw ▸ ⟨List.mem_of_find?_eq_some hw, hpred.2⟩
      · exact hall x hxs

/-- When some requested id has no workout row owned by the caller, the
validation loop fails with the 404 naming such an id (the first one, in
request order). -/
theorem validate_workouts_error (db : Db) (uid : Nat) (ids : List Nat)
    (h : ∃ wid ∈ ids,
      db.workouts.find? (fun w => w.id == wid && w.user_id == uid) = none) :
    ∃ wid ∈ ids,
      db.workouts.find? (fun w => w.id == wid && w.user_id == uid) = none ∧
      validate_workouts db uid ids = Except.error (routine_workout_error wid) := by
  induction ids with
  | nil => simp at h
  | cons wid rest ih =>
    cases hfind : db.workouts.find? (fun w => w.id == wid && w.user_id == uid) with
    | none => exact ⟨wid, by simp, hfind, by simp [validate_workouts, hfind]⟩
    | some w =>
      have hrest : ∃ x ∈ rest,
          db.workouts.find? (fun wk => wk.id == x && wk.user_id == uid) = none := by
        obtain ⟨x, hx, hxnone⟩ := h
        rcases List.mem_cons.mp hx with hxw | hxr
        · rw [hxw] at hxnone
          rw [hxnone] at hfind
          cases hfind
        · exact ⟨x, hxr, hxnone⟩
      obtain ⟨x, hxr, hxnone, hval⟩ := ih hrest
      exact ⟨x, by simp [hxr], hxnone, by simp [validate_workouts, hfind, hval]⟩

/-- With `AUTH_SECRET_KEY` configured in the environment, `auth.py` and
`deps.py` compute the same secret, and a token issued by
`create_access_token` verifies, at any instant strictly before its expiry,
to exactly the identity it was issued for. -/
theorem token_roundtrip_when_secret_configured (env : Env) (key : String)
    (henv : env "AUTH_SECRET_KEY" = some key) (username : String) (user_id : Nat)
    (issued_at ttl now : Nat) (hnow : now < issued_at + ttl) :
    get_current_user env now (create_access_token env issued_at username user_id ttl) =
      Except.ok { username := username, id := user_id } := by
  have hsec : auth_SECRET_KEY env = deps_SECRET_KEY env := by
    simp [auth_SECRET_KEY, deps_SECRET_KEY, henv]
  have hexp : ¬ (issued_at + ttl < now) := Nat.not_lt.mpr (Nat.le_of_lt hnow)
  simp [get_current_user, create_access_token, jwt_decode, hsec, hexp]

/-- C2: with no `AUTH_SECRET_KEY` in the environment, the token issued by
`create_access_token` for alice (id 1) is rejected by `get_current_user`
well before its expiry instant, because `routers/auth.py` signs with the
fallback `"fallback-secret-key-change-in-production"` while `deps.py`
verifies against the different fallback
`"fallback-secret-key-change-this-in-production"`. -/
theorem token_roundtrip_fails_on_default_secrets :
    auth_SECRET_KEY no_env ≠ deps_SECRET_KEY no_env ∧
    create_access_token no_env 0 "alice" 1 1200 =
      JWT.signed { sub := some "alice", id := some 1, exp := some 1200 }
        (auth_SECRET_KEY no_env) ∧
    get_current_user no_env 100 (create_access_token no_env 0 "alice" 1 1200) =
      Except.error credentials_error := by
  exact ⟨by decide, rfl, rfl⟩

/-- C3: a login attempt with a username that exists nowhere in the store and
a login attempt with an existing username but a password whose bcrypt check
fails both produce the very same `Except.error` value — one fixed 401 — so
the response does not reveal which check failed. -/
theorem login_failure_indistinguishable (verify : String → String → Bool) (env : Env)
    (now : Nat) (db : Db) (missing_name p1 existing_name p2 : String)
    (h1 : ∀ u ∈ db.users, u.username ≠ missing_name)
    (hex : ∃ u ∈ db.users, u.username = existing_name)
    (h2 : ∀ u ∈ db.users, u.username = existing_name →
      verify p2 u.hashed_password = false) :
    login_for_access_token verify env now db missing_name p1 =
      Except.error incorrect_credentials_error ∧
    login_for_access_token verify env now db existing_name p2 =
      Except.error incorrect_credentials_error ∧
    login_for_access_token verify env now db missing_name p1 =
      login_for_access_token verify env now db existing_name p2 := by
  have hnone : db.users.find? (fun u => u.username == missing_name) = none := by
    rw [List.find?_eq_none]
    intro u hu
    simp only [beq_iff_eq]
    exact h1 u hu
  have e1 : login_for_access_token verify env now db missing_name p1 =
      Except.error incorrect_credentials_error := by
    simp [login_for_access_token, authenticate_user, hnone]
  have e2 : login_for_access_token verify env now db existing_name p2 =
      Except.error incorrect_credentials_error := by
    cases hfind : db.users.find? (fun u => u.username == existing_name) with
    | none => simp [login_for_access_token, authenticate_user, hfind]
    | some u =>
      have hname := List.find?_some hfind
      simp only [beq_iff_eq] at hname
      have hv := h2 u (List.mem_of_find?_eq_some hfind) hname
      simp [login_for_access_token, authenticate_user, hfind, hv]
  exact ⟨e1, e2, by rw [e1, e2]⟩

/-- C3 witness: in `demo_db` (only user alice, stored hash "h", with equality
standing in for the bcrypt check) the nonexistent-username attempt and the
wrong-password attempt return identical errors. -/
theorem login_failure_indistinguishable_witness :
    login_for_access_token (fun p h => p == h) no_env 0 demo_db "bob" "pw" =
      Except.error incorrect_credentials_error ∧
    login_for_access_token (fun p h => p == h) no_env 0 demo_db "alice" "wrong" =
      Except.error incorrect_credentials_error := by
  have h := login_failure_indistinguishable (fun p h => p == h) no_env 0 demo_db
    "bob" "pw" "alice" "wrong" (by decide) (by decide) (by decide)
  exact ⟨h.1, h.2.1⟩

/-- C4: `create_user` fails — with the duplicate-username error the spec's
taxonomy calls `Conflict` — exactly when a stored user already has the
requested username, leaving the store unchanged; otherwise it persists the
username with the hash of the password and returns the `UserResponse`, whose
only fields are `id` and `username` (the hash cannot appear in it). -/
theorem register_conflict_iff_username_exists (hash : String → String) (db : Db)
    (req : UserCreateRequest) :
    ((∃ u ∈ db.users, u.username = req.username) →
       create_user hash db req = Except.error username_taken_error ∧
       db_after_register hash db req = db)
    ∧ ((¬ ∃ u ∈ db.users, u.username = req.username) →
       create_user hash db req = Except.ok
         ({ db with
            users := db.users ++
              [{ id := db.nextUserId, username := req.username,
                 hashed_password := hash req.password }],
            nextUserId := db.nextUserId + 1 },
          { id := db.nextUserId, username := req.username })) := by
  constructor
  · intro hex
    have hfind : (db.users.find? (fun u => u.username == req.username)).isSome := by
      rw [List.find?_isSome]
      obtain ⟨u, hu, hname⟩ := hex
      exact ⟨u, hu, by simp [hname]⟩
    obtain ⟨u, hu⟩ := Option.isSome_iff_exists.mp hfind
    exact ⟨by simp [create_user, hu], by simp [db_after_register, create_user, hu]⟩
  · intro hnex
    have hfind : db.users.find? (fun u => u.username == req.username) = none := by
      rw [List.find?_eq_none]
      intro u hu
      simp only [beq_iff_eq]
      exact fun h => hnex ⟨u, hu, h⟩
    simp [create_user, hfind]

/-- C4 witness: in `demo_db` re-registering "alice" fails with the duplicate
error and changes nothing, while registering "bob" persists the hashed
password and returns only the id and username. -/
theorem register_conflict_iff_username_exists_witness :
    create_user (fun p => p ++ "!") demo_db { username := "alice", password := "x" } =
      Except.error username_taken_error ∧
    db_after_register (fun p => p ++ "!") demo_db { username := "alice", password := "x" } =
      demo_db ∧
    create_user (fun p => p ++ "!") demo_db { username := "bob", password := "pw" } =
      Except.ok
        ({ demo_db with
           users := demo_db.users ++ [{ id := 2, username := "bob", hashed_password := "pw!" }],
           nextUserId := 3 },
         { id := 2, username := "bob" }) := by
  have h1 := (register_conflict_iff_username_exists (fun p => p ++ "!") demo_db
    { username := "alice", password := "x" }).1 (by decide)
  have h2 := (register_conflict_iff_username_exists (fun p => p ++ "!") demo_db
    { username := "bob", password := "pw" }).2 (by decide)
  exact ⟨h1.1, h1.2, h2⟩

/-- C5: `get_workout` returns the workout with the requested id whenever one
exists — its result does not depend on the caller at all, so ownership is
never checked — and fails with the 404 exactly when no workout has that id. -/
theorem get_workout_no_ownership_filter (db : Db) (user : CurrentUser)
    (workout_id : Nat) :
    ((∃ w ∈ db.workouts, w.id = workout_id) →
       ∃ w ∈ db.workouts, w.id = workout_id ∧
         get_workout db user workout_id = Except.ok w)
    ∧ ((¬ ∃ w ∈ db.workouts, w.id = workout_id) →
       get_workout db user workout_id = Except.error workout_not_found_error)
    ∧ (∀ other : CurrentUser,
        get_workout db user workout_id = get_workout db other workout_id) := by
  refine ⟨?_, ?_, fun _ => rfl⟩
  · intro hex
    have hfind : (db.workouts.find? (fun w => w.id == workout_id)).isSome := by
      rw [List.find?_isSome]
      obtain ⟨w, hw, hid⟩ := hex
      exact ⟨w, hw, by simp [hid]⟩
    obtain ⟨w, hw⟩ := Option.isSome_iff_exists.mp hfind
    have hid := List.find?_some hw
    simp only [beq_iff_eq] at hid
    exact ⟨w, List.mem_of_find?_eq_some hw, hid, by simp [get_workout, hw]⟩
  · intro hnex
    have hfind : db.workouts.find? (fun w => w.id == workout_id) = none := by
      rw [List.find?_eq_none]
      intro w hw
      simp only [beq_iff_eq]
      exact fun h => hnex ⟨w, hw, h⟩
    simp [get_workout, hfind]

/-- C5 witness: bob (id 2) fetches workout 1 although alice owns it, and a
nonexistent id 5 gives the 404. -/
theorem get_workout_no_ownership_filter_witness :
    get_workout demo_db demo_bob 1 =
      Except.ok { id := 1, user_id := 1, name := "Push-ups", description := none } ∧
    get_workout demo_db demo_bob 5 = Except.error workout_not_found_error := by
  have h := get_workout_no_ownership_filter demo_db demo_bob 1
  obtain ⟨w, hw, hid, hok⟩ := h.1
    ⟨{ id := 1, user_id := 1, name := "Push-ups", description := none }, by decide, rfl⟩
  have hweq : w = { id := 1, user_id := 1, name := "Push-ups", description := none } := by
    simpa [demo_db] using hw
  rw [hweq] at hok
  have h5 := (get_workout_no_ownership_filter demo_db demo_bob 5).2.1 (by decide)
  exact ⟨hok, h5⟩

/-- C9: `get_current_user` raises its single 401 exactly when the spec-side
rejection predicate holds (malformed token, signature made with a key other
than the verifier's secret, expired `exp` claim, or a missing `sub` or `id`
claim); when none of these holds for a presented signed token, it returns
exactly the identity carried by the `sub` and `id` claims. -/
theorem get_current_user_error_conditions (env : Env) (now : Nat) (token : JWT) :
    (get_current_user env now token = Except.error credentials_error ↔
       spec_token_rejected env now token = true)
    ∧ (∀ payload key, token = JWT.signed payload key →
         spec_token_rejected env now token = false →
         ∀ u, payload.sub = some u → ∀ i, payload.id = some i →
           get_current_user env now token = Except.ok { username := u, id := i }) := by
  constructor
  · rcases token with _ | ⟨⟨sub, id, exp⟩, key⟩
    · simp [get_current_user, jwt_decode, spec_token_rejected]
    · by_cases hkey : key = deps_SECRET_KEY env
      · subst hkey
        cases exp with
        | none =>
          cases sub <;> cases id <;>
            simp [get_current_user, jwt_decode, spec_token_rejected]
        | some e =>
          by_cases he : e < now
          · simp [get_current_user, jwt_decode, spec_token_rejected, he]
          · cases sub <;> cases id <;>
              simp [get_current_user, jwt_decode, spec_token_rejected, he]
      · simp [get_current_user, jwt_decode, spec_token_rejected, hkey]
  · intro payload key htok hrej u hu i hi
    subst htok
    simp only [spec_token_rejected, hu, hi, Option.isNone_some, Bool.or_false,
      Bool.or_eq_false_iff, Bool.not_eq_true', beq_eq_false_iff_ne, ne_eq] at hrej
    obtain ⟨hkeyrej, hexprej⟩ := hrej
    have hkey : key = deps_SECRET_KEY env := by
      by_contra hne
      simp [hne] at hkeyrej
    subst hkey
    cases hexp : payload.exp with
    | none => simp [get_current_user, jwt_decode, hexp, hu, hi]
    | some e =>
      rw [hexp] at hexprej
      simp only [decide_eq_false_iff_not] at hexprej
      simp [get_current_user, jwt_decode, hexp, hexprej, hu, hi]

/-- C9 witness: a malformed token is rejected with the 401, and a token
signed with the verifier's secret, unexpired and carrying both claims, is
accepted as alice (id 1). -/
theorem get_current_user_error_conditions_witness :
    get_current_user no_env 5 JWT.malformed = Except.error credentials_error ∧
    get_current_user no_env 5
      (JWT.signed { sub := some "alice", id := some 1, exp := some 10 }
        (deps_SECRET_KEY no_env)) =
      Except.ok { username := "alice", id := 1 } := by
  have h1 := (get_current_user_error_conditions no_env 5 JWT.malformed).1.mpr (by decide)
  have h2 := (get_current_user_error_conditions no_env 5
    (JWT.signed { sub := some "alice", id := some 1, exp := some 10 }
      (deps_SECRET_KEY no_env))).2
    { sub := some "alice", id := some 1, exp := some 10 } (deps_SECRET_KEY no_env)
    rfl (by decide) "alice" rfl 1 rfl
  exact ⟨h1, h2⟩

/-- C10: the `workouts` field of `RoutineCreate` defaults to the empty list,
and `create_routine` on a valid request that omits it always succeeds,
persisting the routine row with no association rows (the membership table is
unchanged) and returning the routine with an empty workouts collection. -/
theorem create_routine_default_workouts_empty (db : Db) (user : CurrentUser)
    (name : String) (descr : Option String)
    (hvalid : RoutineCreate.valid { name := name, description := descr } = true) :
    ({ name := name, description := descr } : RoutineCreate).workouts = [] ∧
    create_routine db user { name := name, description := descr } = Except.ok
      ({ db with
         routines := db.routines ++
           [{ id := db.nextRoutineId, user_id := user.id, name := name,
              description := descr }],
         nextRoutineId := db.nextRoutineId + 1 },
       { id := db.nextRoutineId, user_id := user.id, name := name, description := descr,
         workouts := [] }) ∧
    (db_after_create_routine db user { name := name, description := descr }).memberships =
      db.memberships := by
  refine ⟨rfl, rfl, rfl⟩

/-- C10 witness: creating "AM" with no workouts in `demo_db` succeeds with
zero membership rows and an empty workouts collection. -/
theorem create_routine_default_workouts_empty_witness :
    create_routine demo_db demo_user { name := "AM", description := none } = Except.ok
      ({ demo_db with
         routines := [{ id := 1, user_id := 1, name := "AM", description := none }],
         nextRoutineId := 2 },
       { id := 1, user_id := 1, name := "AM", description := none, workouts := [] }) := by
  have h := create_routine_default_workouts_empty demo_db demo_user "AM" none (by decide)
  simpa [demo_db, demo_user] using h.2.1

/-- C7: `delete_workout` fails with its 404 — leaving the store unchanged —
unless a workout with the requested id exists and is owned by the caller; on
success it commits, in one transaction, a store without that workout row and
without any association row referencing it, so the owner's subsequent
workout list no longer contains it. -/
theorem delete_workout_iff_owned_with_cleanup (db : Db) (user : CurrentUser)
    (workout_id : Nat) :
    ((¬ ∃ w ∈ db.workouts, w.id = workout_id ∧ w.user_id = user.id) →
       delete_workout db user workout_id = Except.error workout_delete_not_found_error ∧
       db_after_delete_workout db user workout_id = db)
    ∧ ((∃ w ∈ db.workouts, w.id = workout_id ∧ w.user_id = user.id) →
       delete_workout db user workout_id = Except.ok
         ({ db with
            workouts := db.workouts.filter (fun w => !(w.id == workout_id)),
            memberships := db.memberships.filter (fun m => !(m.workout_id == workout_id)) },
          "Workout deleted successfully") ∧
       (∀ m ∈ (db_after_delete_workout db user workout_id).memberships,
          m.workout_id ≠ workout_id) ∧
       (∀ w ∈ (db_after_delete_workout db user workout_id).workouts, w.id ≠ workout_id) ∧
       (∀ w ∈ get_workouts (db_after_delete_workout db user workout_id) user,
          w.id ≠ workout_id)) := by
  constructor
  · intro hnex
    have hfind : db.workouts.find?
        (fun w => w.id == workout_id && w.user_id == user.id) = none := by
      rw [List.find?_eq_none]
      intro w hw
      simp only [Bool.and_eq_true, beq_iff_eq, not_and]
      exact fun h1 h2 => hnex ⟨w, hw, h1, h2⟩
    exact ⟨by simp [delete_workout, hfind],
           by simp [db_after_delete_workout, delete_workout, hfind]⟩
  · intro hex
    have hfind : (db.workouts.find?
        (fun w => w.id == workout_id && w.user_id == user.id)).isSome := by
      rw [List.find?_isSome]
      obtain ⟨w, hw, h1, h2⟩ := hex
      exact ⟨w, hw, by simp [h1, h2]⟩
    obtain ⟨w, hw⟩ := Option.isSome_iff_exists.mp hfind
    have hdel : delete_workout db user workout_id = Except.ok
        ({ db with
           workouts := db.workouts.filter (fun w => !(w.id == workout_id)),
           memberships := db.memberships.filter (fun m => !(m.workout_id == workout_id)) },
         "Workout deleted successfully") := by
      simp [delete_workout, hw]
    have hafter : db_after_delete_workout db user workout_id =
        { db with
          workouts := db.workouts.filter (fun w => !(w.id == workout_id)),
          memberships := db.memberships.filter (fun m => !(m.workout_id == workout_id)) } := by
      simp [db_after_delete_workout, hdel]
    refine ⟨hdel, ?_, ?_, ?_⟩
    · intro m hm
      rw [hafter] at hm
      simp only [List.mem_filter, Bool.not_eq_eq_eq_not, Bool.not_true,
        beq_eq_false_iff_ne, ne_eq] at hm
      exact hm.2
    · intro x hx
      rw [hafter] at hx
      simp only [List.mem_filter, Bool.not_eq_eq_eq_not, Bool.not_true,
        beq_eq_false_iff_ne, ne_eq] at hx
      exact hx.2
    · intro x hx
      rw [hafter] at hx
      simp only [get_workouts, List.mem_filter, Bool.not_eq_eq_eq_not, Bool.not_true,
        beq_eq_false_iff_ne, ne_eq, beq_iff_eq] at hx
      exact hx.1.2

/-- C7 witness: in `demo_db2`, bob cannot delete alice's workout 1 (404, no
change), while alice's deletion removes the workout row and its association
row with routine 1. -/
theorem delete_workout_iff_owned_with_cleanup_witness :
    delete_workout demo_db2 demo_bob 1 = Except.error workout_delete_not_found_error ∧
    db_after_delete_workout demo_db2 demo_bob 1 = demo_db2 ∧
    delete_workout demo_db2 demo_user 1 = Except.ok
      ({ demo_db2 with
         workouts := [{ id := 2, user_id := 2, name := "Squats", description := some "legs" }],
         memberships := [] },
       "Workout deleted successfully") := by
  have hb := (delete_workout_iff_owned_with_cleanup demo_db2 demo_bob 1).1 (by decide)
  have ha := (delete_workout_iff_owned_with_cleanup demo_db2 demo_user 1).2
    ⟨{ id := 1, user_id := 1, name := "Push-ups", description := none }, by decide, rfl, rfl⟩
  refine ⟨hb.1, hb.2, ?_⟩
  rw [ha.1]
  rfl

/-- C8: `delete_routine` fails with its 404 — leaving the store unchanged —
unless a routine with the requested id exists and is owned by the caller; on
success it commits a store without the routine row and without its
association rows while the workout rows are exactly the ones from before, so
the owner's workout list is unchanged by the deletion. -/
theorem delete_routine_frame (db : Db) (user : CurrentUser) (routine_id : Nat) :
    ((¬ ∃ r ∈ db.routines, r.id = routine_id ∧ r.user_id = user.id) →
       delete_routine db user routine_id = Except.error routine_delete_not_found_error ∧
       db_after_delete_routine db user routine_id = db)
    ∧ ((∃ r ∈ db.routines, r.id = routine_id ∧ r.user_id = user.id) →
       delete_routine db user routine_id = Except.ok
         ({ db with
            routines := db.routines.filter (fun r => !(r.id == routine_id)),
            memberships := db.memberships.filter (fun m => !(m.routine_id == routine_id)) },
          "Routine deleted successfully") ∧
       (db_after_delete_routine db user routine_id).workouts = db.workouts ∧
       get_workouts (db_after_delete_routine db user routine_id) user =
         get_workouts db user ∧
       (∀ m ∈ (db_after_delete_routine db user routine_id).memberships,
          m.routine_id ≠ routine_id) ∧
       (∀ r ∈ (db_after_delete_routine db user routine_id).routines,
          r.id ≠ routine_id)) := by
  constructor
  · intro hnex
    have hfind : db.routines.find?
        (fun r => r.id == routine_id && r.user_id == user.id) = none := by
      rw [List.find?_eq_none]
      intro r hr
      simp only [Bool.and_eq_true, beq_iff_eq, not_and]
      exact fun h1 h2 => hnex ⟨r, hr, h1, h2⟩
    exact ⟨by simp [delete_routine, hfind],
           by simp [db_after_delete_routine, delete_routine, hfind]⟩
  · intro hex
    have hfind : (db.routines.find?
        (fun r => r.id == routine_id && r.user_id == user.id)).isSome := by
      rw [List.find?_isSome]
      obtain ⟨r, hr, h1, h2⟩ := hex
      exact ⟨r, hr, by simp [h1, h2]⟩
    obtain ⟨r, hr⟩ := Option.isSome_iff_exists.mp hfind
    have hdel : delete_routine db user routine_id = Except.ok
        ({ db with
           routines := db.routines.filter (fun r => !(r.id == routine_id)),
           memberships := db.memberships.filter (fun m => !(m.routine_id == routine_id)) },
         "Routine deleted successfully") := by
      simp [delete_routine, hr]
    have hafter : db_after_delete_routine db user routine_id =
        { db with
          routines := db.routines.filter (fun r => !(r.id == routine_id)),
          memberships := db.memberships.filter (fun m => !(m.routine_id == routine_id)) } := by
      simp [db_after_delete_routine, hdel]
    refine ⟨hdel, by rw [hafter], by rw [hafter]; rfl, ?_, ?_⟩
    · intro m hm
      rw [hafter] at hm
      simp only [List.mem_filter, Bool.not_eq_eq_eq_not, Bool.not_true,
        beq_eq_false_iff_ne, ne_eq] at hm
      exact hm.2
    · intro x hx
      rw [hafter] at hx
      simp only [List.mem_filter, Bool.not_eq_eq_eq_not, Bool.not_true,
        beq_eq_false_iff_ne, ne_eq] at hx
      exact hx.2

/-- C8 witness: in `demo_db2`, bob cannot delete alice's routine 1 (404, no
change), while alice's deletion removes the routine row and its association
row and leaves both workout rows — and her workout list — untouched. -/
theorem delete_routine_frame_witness :
    delete_routine demo_db2 demo_bob 1 = Except.error routine_delete_not_found_error ∧
    db_after_delete_routine demo_db2 demo_bob 1 = demo_db2 ∧
    delete_routine demo_db2 demo_user 1 = Except.ok
      ({ demo_db2 with routines := [], memberships := [] },
       "Routine deleted successfully") ∧
    (db_after_delete_routine demo_db2 demo_user 1).workouts = demo_db2.workouts := by
  have hb := (delete_routine_frame demo_db2 demo_bob 1).1 (by decide)
  have ha := (delete_routine_frame demo_db2 demo_user 1).2
    ⟨{ id := 1, user_id := 1, name := "AM", description := none }, by decide, rfl, rfl⟩
  refine ⟨hb.1, hb.2, ?_, ha.2.1⟩
  rw [ha.1]
  rfl

/-- C1 (amended): if any requested workout id has no row owned by the
caller, `create_routine` fails with the 404 naming an offending id and the
committed store — in particular the caller's routine list — is unchanged;
if every requested id is owned by the caller and no id is repeated in the
list, it persists the routine row plus one association row per validated
workout and returns the routine populated with those workouts. The
`hfresh` hypothesis states that no existing association row carries the
autoincrement id the new routine will receive, which SQLite guarantees. -/
theorem create_routine_atomic_all_or_nothing (db : Db) (user : CurrentUser)
    (routine : RoutineCreate)
    (hfresh : ∀ m ∈ db.memberships, m.routine_id ≠ db.nextRoutineId) :
    ((∃ wid ∈ routine.workouts,
        db.workouts.find? (fun w => w.id == wid && w.user_id == user.id) = none) →
       (∃ wid ∈ routine.workouts,
          db.workouts.find? (fun w => w.id == wid && w.user_id == user.id) = none ∧
          create_routine db user routine = Except.error (routine_workout_error wid)) ∧
       db_after_create_routine db user routine = db ∧
       get_routines (db_after_create_routine db user routine) user =
         get_routines db user)
    ∧ ((∀ wid ∈ routine.workouts,
          (db.workouts.find? (fun w => w.id == wid && w.user_id == user.id)).isSome) →
       routine.workouts.Nodup →
       ∃ ws : List Workout,
         ws.map Workout.id = routine.workouts ∧
         (∀ w ∈ ws, w ∈ db.workouts ∧ w.user_id = user.id) ∧
         create_routine db user routine = Except.ok
           ({ db with
              routines := db.routines ++
                [{ id := db.nextRoutineId, user_id := user.id, name := routine.name,
                   description := routine.description }],
              memberships := db.memberships ++
                ws.map (fun w => { workout_id := w.id, routine_id := db.nextRoutineId }),
              nextRoutineId := db.nextRoutineId + 1 },
            { id := db.nextRoutineId, user_id := user.id, name := routine.name,
              description := routine.description,
              workouts := ws.map Workout.toSummary })) := by
  constructor
  · intro hex
    obtain ⟨wid, hmem, hnone, hval⟩ :=
      validate_workouts_error db user.id routine.workouts hex
    have herr : create_routine db user routine =
        Except.error (routine_workout_error wid) := by
      simp [create_routine, hval]
    exact ⟨⟨wid, hmem, hnone, herr⟩, by simp [db_after_create_routine, herr],
           by simp [db_after_create_routine, herr]⟩
  · intro hall hnd
    obtain ⟨ws, hval, hmap, hown⟩ := validate_workouts_ok db user.id routine.workouts hall
    have hrowsnd : (ws.map (fun w =>
        ({ workout_id := w.id, routine_id := db.nextRoutineId } : Membership))).Nodup := by
      apply List.Nodup.of_map Membership.workout_id
      rw [List.map_map]
      exact hmap ▸ hnd
    have hdisj : ∀ m ∈ ws.map (fun w =>
        ({ workout_id := w.id, routine_id := db.nextRoutineId } : Membership)),
        m ∉ db.memberships := by
      intro m hm hmem
      obtain ⟨w, _, hw⟩ := List.mem_map.mp hm
      have : m.routine_id = db.nextRoutineId := by rw [← hw]
      exact hfresh m hmem this
    have hins := insert_memberships_ok _ db.memberships hrowsnd hdisj
    refine ⟨ws, hmap, hown, ?_⟩
    simp [create_routine, hval, hins]

/-- C1 counterexample: in `demo_db` every id in the request list `[1, 1]` is
a workout owned by the caller, yet `create_routine` does not persist and
return a routine — it fails with the 400 wrapping the association table's
uniqueness violation — so the success branch of the claim, quantified over
every list of workout ids, is false as stated. -/
theorem create_routine_success_branch_fails_on_duplicates :
    (([1, 1] : List Nat).all (fun wid =>
      (demo_db.workouts.find? (fun w =>
        w.id == wid && w.user_id == demo_user.id)).isSome)) = true ∧
    create_routine demo_db demo_user
      { name := "AM", description := none, workouts := [1, 1] } =
      Except.error integrity_error := by
  exact ⟨by decide, rfl⟩

/-- C1 witness: referencing bob-less id 2 fails naming id 2 and leaves
`demo_db` unchanged; the duplicate-free list `[1]` succeeds with one routine
row and one association row. -/
theorem create_routine_atomic_all_or_nothing_witness :
    create_routine demo_db demo_user
      { name := "A", description := none, workouts := [2] } =
      Except.error (routine_workout_error 2) ∧
    db_after_create_routine demo_db demo_user
      { name := "A", description := none, workouts := [2] } = demo_db ∧
    create_routine demo_db demo_user
      { name := "B", description := none, workouts := [1] } =
      Except.ok
        ({ demo_db with
           routines := [{ id := 1, user_id := 1, name := "B", description := none }],
           memberships := [{ workout_id := 1, routine_id := 1 }],
           nextRoutineId := 2 },
         { id := 1, user_id := 1, name := "B", description := none,
           workouts := [{ id := 1, name := "Push-ups", description := none }] }) := by
  have h := create_routine_atomic_all_or_nothing demo_db demo_user
    { name := "A", description := none, workouts := [2] } (by decide)
  obtain ⟨⟨wid, hmem, _, herr⟩, hdb, _⟩ := h.1 ⟨2, by decide, by decide⟩
  have hwid : wid = 2 := by simpa using hmem
  subst hwid
  have h2 := create_routine_atomic_all_or_nothing demo_db demo_user
    { name := "B", description := none, workouts := [1] } (by decide)
  obtain ⟨ws, hmap, hown, hok⟩ := h2.2 (by decide) (by decide)
  refine ⟨herr, hdb, ?_⟩
  have hws : ws = [{ id := 1, user_id := 1, name := "Push-ups", description := none }] := by
    cases ws with
    | nil => simp at hmap
    | cons w tail =>
      cases tail with
      | cons _ _ => simp at hmap
      | nil =>
        have hw := (hown w (by simp)).1
        have : w = { id := 1, user_id := 1, name := "Push-ups", description := none } := by
          simpa [demo_db] using hw
        simp [this]
  rw [hws] at hok
  rw [hok]
  rfl

/-- C6 (amended): when the request list repeats a caller-owned workout id,
the flush of the appended collection emits a duplicate insert into the
pair-unique association table, so `create_routine` does not collapse the
duplicates: it fails with the 400 wrapping the uniqueness violation and
persists neither a routine row nor any association row. -/
theorem create_routine_duplicate_ids_bad_request (db : Db) (user : CurrentUser)
    (routine : RoutineCreate)
    (hall : ∀ wid ∈ routine.workouts,
      (db.workouts.find? (fun w => w.id == wid && w.user_id == user.id)).isSome)
    (hdup : ¬ routine.workouts.Nodup) :
    create_routine db user routine = Except.error integrity_error ∧
    db_after_create_routine db user routine = db ∧
    get_routines (db_after_create_routine db user routine) user =
      get_routines db user := by
  obtain ⟨ws, hval, hmap, hown⟩ := validate_workouts_ok db user.id routine.workouts hall
  have hrowsdup : ¬ (ws.map (fun w =>
      ({ workout_id := w.id, routine_id := db.nextRoutineId } : Membership))).Nodup := by
    intro hnd
    apply hdup
    rw [← hmap]
    have hproj := hnd.map_on (f := Membership.workout_id) ?_
    · rw [List.map_map] at hproj
      exact hproj
    · intro x hx y hy hxy
      obtain ⟨wx, _, hwx⟩ := List.mem_map.mp hx
      obtain ⟨wy, _, hwy⟩ := List.mem_map.mp hy
      rw [← hwx, ← hwy] at hxy ⊢
      have hid : wx.id = wy.id := hxy
      rw [hid]
  have hins := insert_memberships_none_of_not_nodup db.memberships _ hrowsdup
  have herr : create_routine db user routine = Except.error integrity_error := by
    simp [create_routine, hval, hins]
  exact ⟨herr, by simp [db_after_create_routine, herr],
         by simp [db_after_create_routine, herr]⟩

/-- C6 counterexample: in `demo_db` the duplicate list `[1, 1]` of a
caller-owned workout id makes `create_routine` fail with the 400 instead of
succeeding with the duplicates collapsed, and nothing is persisted. -/
theorem create_routine_does_not_collapse_duplicates :
    create_routine demo_db demo_user
      { name := "PM", description := none, workouts := [1, 1] } =
      Except.error integrity_error ∧
    (db_after_create_routine demo_db demo_user
      { name := "PM", description := none, workouts := [1, 1] }).memberships = [] ∧
    (db_after_create_routine demo_db demo_user
      { name := "PM", description := none, workouts := [1, 1] }).routines = [] := by
  exact ⟨rfl, rfl, rfl⟩

/-- C6 witness: the amended claim evaluated in `demo_db` on the duplicate
list `[1, 1]`. -/
theorem create_routine_duplicate_ids_bad_request_witness :
    create_routine demo_db demo_user
      { name := "PM2", description := none, workouts := [1, 1] } =
      Except.error integrity_error ∧
    db_after_create_routine demo_db demo_user
      { name := "PM2", description := none, workouts := [1, 1] } = demo_db := by
  have h := create_routine_duplicate_ids_bad_request demo_db demo_user
    { name := "PM2", description := none, workouts := [1, 1] } (by decide) (by decide)
  exact ⟨h.1, h.2.1⟩

end WorkoutApp
